import Mathlib

/-!
Verification of the manga catalog scraper (src/manga_scraper3.py) against its
natural-language specification.

The Python source is shallowly embedded below.  Documents returned by the
fetcher/HTML parser are modelled by structures recording, for each CSS
selector the source queries, the result of that query (an optional element,
or a list of element texts).  A failed fetch or parse (an exception raised
by the crawler or BeautifulSoup) is modelled by passing `none` for the
document, matching the `except` branches in the source.  Python `str.strip`
is modelled over character lists; Python floats are modelled by rationals
(all values in scope are small decimals, exactly representable).
-/

namespace MangaScraper

/-- Python truthiness based `or` on optional elements: BeautifulSoup tags are
always truthy, so `a or b` returns `a` unless it is `None`. -/
def pyOrOpt {α : Type} (a b : Option α) : Option α :=
  match a with
  | some x => some x
  | none => b

/-- Python truthiness based `or` on optional strings: `a or b` returns `b`
when `a` is `None` or the empty string. -/
def pyOrStr (a b : Option String) : Option String :=
  match a with
  | some s => if s = "" then b else some s
  | none => b

/-- Python truthiness based `or` on lists of selector results: `a or b`
returns `b` when `a` is the empty list. -/
def pyOrList {α : Type} (a b : List α) : List α :=
  if a.isEmpty then b else a

/-- Model of Python `str.strip` on a character list: drop whitespace from
both ends. -/
def stripChars (cs : List Char) : List Char :=
  ((cs.dropWhile Char.isWhitespace).reverse.dropWhile Char.isWhitespace).reverse

/-- Model of Python `str.strip`. -/
def pyStrip (s : String) : String :=
  String.mk (stripChars s.data)

/-- Character-list test used to model Python `str.startswith`. -/
def startsWithL : List Char → List Char → Bool
  | [], _ => true
  | _ :: _, [] => false
  | a :: as1, b :: bs => a == b && startsWithL as1 bs

/-- Model of the Python substring test `needle in hay`. -/
def containsSub : List Char → List Char → Bool
  | n, [] => startsWithL n []
  | n, c :: h => startsWithL n (c :: h) || containsSub n h

/-- Value of a digit run, most significant first (semantics of the digits
matched by the rating regular expression). -/
def digitsToNat (cs : List Char) : Nat :=
  cs.foldl (fun a c => a * 10 + (c.toNat - 48)) 0

/-- Model of a single attempted match of the pattern `\d+\.?\d*` at the head
of the character list: a maximal digit run, then a dot if one immediately
follows, then a further maximal digit run.  Fails when the head is not a
digit. -/
def matchNum (cs : List Char) : Option (List Char) :=
  let ds := cs.takeWhile Char.isDigit
  if ds.isEmpty then none
  else
    match cs.drop ds.length with
    | '.' :: r => some (ds ++ '.' :: r.takeWhile Char.isDigit)
    | _ => some ds

/-- Model of `re.search` for the pattern `(\d+\.?\d*)`: try a match at each
position from the left, returning the first (leftmost) match. -/
def searchNum : List Char → Option (List Char)
  | [] => none
  | c :: cs =>
    match matchNum (c :: cs) with
    | some m => some m
    | none => searchNum cs

/-- Model of Python `float` applied to a matched decimal string of the shape
`digits[.digits]`. -/
def parseFloatStr (cs : List Char) : ℚ :=
  let intPart := cs.takeWhile Char.isDigit
  let fracPart :=
    match cs.drop intPart.length with
    | '.' :: r => r.takeWhile Char.isDigit
    | _ => []
  (digitsToNat intPart : ℚ) + (digitsToNat fracPart : ℚ) / ((10 : ℚ) ^ fracPart.length)

/-- Embedding of the rating extraction of `extract_manga_details` (source
lines 152-161): when the rating element is present, strip its text, search
for the first decimal-number substring, and parse it as a float; otherwise
`None`. -/
def extractRating (ratingEl : Option String) : Option ℚ :=
  match ratingEl with
  | some t =>
    match searchNum (pyStrip t).data with
    | some m => some (parseFloatStr m)
    | none => none
  | none => none

/-- A manga record, modelling the Python dict flowing through the pipeline.
The stub produced by `extract_manga_list` always carries the keys `title`,
`url` and `cover_url` (the latter two possibly with value `None`, modelled
by the inner option being absent is not needed there: for `url` and
`cover_url` the key is always present and `none` models the value `None`).
The remaining keys are absent until set, so for them `none` models an
absent key; `rating`, when present, can itself hold `None`, hence the
nested option. -/
structure MangaRecord where
  title : String
  url : Option String
  cover_url : Option String
  synopsis : Option String
  author : Option (List String)
  genres : Option (List String)
  cover_image : Option String
  rating : Option (Option ℚ)
  status : Option String
deriving DecidableEq, Repr

/-- A parsed detail page, recording the result of each CSS selector query
performed by `extract_manga_details` (source lines 111-165).  Optional
elements carry their `.text`; selector lists carry the `.text` of each
matched element; `coverEl` records element presence and, inside, the value
of its `src` attribute when `has_attr("src")` holds. -/
structure DetailDoc where
  synopsisEl : Option String
  authorEl : Option (List String)
  genresPrimary : List String
  genresAlt1 : List String
  genresAlt2 : List String
  genresLoop1 : List String
  genresLoop2 : List String
  genresLoop3 : List String
  coverEl : Option (Option String)
  ratingEl : Option String
  statusEl : Option String
  statusEl2 : Option String
deriving DecidableEq, Repr

/-- Embedding of the genre extraction of `extract_manga_details` (source
lines 122-143): the primary selector, then the alternative group
`.genres-content .genres-button` or `.genres a` (Python `or`), then a loop
over three broader selectors taking the first that matches, defaulting to
the empty list. -/
def extractGenres (doc : DetailDoc) : List String :=
  let g1 := if doc.genresPrimary.isEmpty then [] else doc.genresPrimary.map pyStrip
  let g2 :=
    if g1.isEmpty then
      let alt := pyOrList doc.genresAlt1 doc.genresAlt2
      if alt.isEmpty then [] else alt.map pyStrip
    else g1
  let g3 :=
    if g2.isEmpty then
      if !doc.genresLoop1.isEmpty then doc.genresLoop1.map pyStrip
      else if !doc.genresLoop2.isEmpty then doc.genresLoop2.map pyStrip
      else if !doc.genresLoop3.isEmpty then doc.genresLoop3.map pyStrip
      else g2
    else g2
  if g3.isEmpty then [] else g3

/-- Embedding of `extract_manga_details(url, basic_info, crawler)` (source
lines 92-172).  `docResult = none` models the `except` branch: the fetch or
parse of the detail page raised, and only `genres` is set on the basic info
before returning it.  On success every detail field is computed from the
document with its per-field fallback and default. -/
def extract_manga_details (url : Option String) (basic_info : MangaRecord)
    (docResult : Option DetailDoc) : MangaRecord :=
  match docResult with
  | none => { basic_info with genres := some [] }
  | some doc =>
    let synopsis :=
      match doc.synopsisEl with
      | some t => pyStrip t
      | none => "Not available"
    let author :=
      match doc.authorEl with
      | some links => if links.isEmpty then ["Unknown"] else links.map pyStrip
      | none => ["Unknown"]
    let cover_image :=
      match doc.coverEl with
      | some (some s) => some s
      | _ => basic_info.cover_image
    let status :=
      match pyOrOpt doc.statusEl doc.statusEl2 with
      | some t => pyStrip t
      | none => "Unknown"
    { basic_info with
      synopsis := some synopsis
      author := some author
      genres := some (extractGenres doc)
      cover_image := cover_image
      rating := some (extractRating doc.ratingEl)
      status := some status }

/-- Messages printed by `extract_manga_details`: the entry line, then either
the error line of the `except` branch or, on success, the no-genres warning
exactly when the extracted genre list is empty. -/
def extract_manga_details_msgs (url : Option String) (basic_info : MangaRecord)
    (docResult : Option DetailDoc) : List String :=
  let entry := "Extracting details for: " ++ basic_info.title
  match docResult with
  | none =>
    [entry, "Error extracting details from " ++ (match url with | some u => u | none => "None")]
  | some doc =>
    if (extractGenres doc).isEmpty then
      [entry, "No genres found for " ++ basic_info.title]
    else
      [entry]

/-- Embedding of the per-item loop body of `main` (source lines 228-242):
each stub on a page is turned into a record by `extract_manga_details` and
appended to the page data; a failed detail fetch (modelled by the fetch
function returning `none`) still yields a record. -/
def processPageItems (fetch : MangaRecord → Option DetailDoc)
    (ms : List MangaRecord) : List MangaRecord :=
  ms.map (fun m => extract_manga_details m.url m (fetch m))

/-- An `img` child element of a link, with its `src` and `data-src`
attributes. -/
structure Img where
  src : Option String
  dataSrc : Option String
deriving DecidableEq, Repr

/-- An anchor-like element of a catalog item node: its `href` attribute, its
text, and its `img` child if any. -/
structure Elem where
  href : Option String
  text : String
  imgChild : Option Img
deriving DecidableEq, Repr

/-- One matched catalog item node, recording the result of each sub-element
query `extract_manga_list` performs on it (source lines 64-65). -/
structure ItemNode where
  posterLink : Option Elem
  posterLink2 : Option Elem
  anyAnchor : Option Elem
  titleSel1 : Option Elem
  titleSel2 : Option Elem
deriving DecidableEq, Repr

/-- A parsed catalog list page, recording the node lists returned by the
four item selectors tried by `extract_manga_list` (source lines 52-56). -/
structure ListDoc where
  itemListItems : List ItemNode
  bookItems : List ItemNode
  mangaItems : List ItemNode
  items : List ItemNode
deriving DecidableEq, Repr

/-- The site base origin (source line 14). -/
def BASE_URL : String := "https://mangareader.to"

/-- Selector cascade for the item nodes of a list page (source lines 52-56):
the primary selector, else `.book-item` or `.manga-item` or `.item`. -/
def selectElements (doc : ListDoc) : List ItemNode :=
  pyOrList doc.itemListItems (pyOrList doc.bookItems (pyOrList doc.mangaItems doc.items))

/-- Link element resolution for one item node (source line 64):
`a.manga-poster` or `a.poster` or the first anchor. -/
def resolveLink (nd : ItemNode) : Option Elem :=
  pyOrOpt nd.posterLink (pyOrOpt nd.posterLink2 nd.anyAnchor)

/-- Title element resolution for one item node (source line 65): two nested
selectors, falling back to the link element itself. -/
def titleElemOf (nd : ItemNode) : Option Elem :=
  pyOrOpt nd.titleSel1 (pyOrOpt nd.titleSel2 (resolveLink nd))

/-- Embedding of the per-node body of the loop in `extract_manga_list`
(source lines 61-84): a stub is emitted only when a link element resolved;
a relative `href` is made absolute; the cover is read from the `img` child
preferring `src` over `data-src`; the title is the stripped text of the
resolved title element, defaulting to the literal `"Unknown Title"`. -/
def extractNode (nd : ItemNode) : Option MangaRecord :=
  let link_element := resolveLink nd
  let title_element := pyOrOpt nd.titleSel1 (pyOrOpt nd.titleSel2 link_element)
  match link_element with
  | none => none
  | some link =>
    let manga_url : Option String :=
      match link.href with
      | some u =>
        if u ≠ "" && !(startsWithL "http".data u.data) then some (BASE_URL ++ u) else some u
      | none => none
    let cover_url : Option String :=
      match link.imgChild with
      | some im => pyOrStr im.src im.dataSrc
      | none => none
    let title :=
      match title_element with
      | some e => pyStrip e.text
      | none => "Unknown Title"
    some { title := title, url := manga_url, cover_url := cover_url,
           synopsis := none, author := none, genres := none,
           cover_image := none, rating := none, status := none }

/-- Embedding of `extract_manga_list` (source lines 27-90).  `none` models
the outer `except` branch (the fetch raised), which returns the empty
list.  On success the selector cascade picks the node list and each node
is extracted, nodes without a resolvable link being skipped. -/
def extract_manga_list (docResult : Option ListDoc) : List MangaRecord :=
  match docResult with
  | none => []
  | some doc => (selectElements doc).filterMap extractNode

/-- An entry of the extracted data list as seen by
`filter_navigation_links`: a dict that may or may not carry a `url` key
(whose value, when present, is a string), or a non-dict value.  A `None`
valued `url` key is outside this model (the source would raise a
`TypeError` on the substring test for it). -/
inductive Entry where
  | dictE (url : Option String)
  | other
deriving DecidableEq, Repr

/-- The catalog listing path segment filtered out (source line 180). -/
def azList : String := "az-list"

/-- The predicate of `filter_navigation_links` (source lines 177-181): the
entry is a dict, has a `url` key, and that url contains `"az-list"`. -/
def isNavigationEntry : Entry → Bool
  | .dictE (some u) => containsSub azList.data u.data
  | _ => false

/-- Embedding of `filter_navigation_links` (source lines 174-182) on list
input: keep the entries that are not navigation links. -/
def filter_navigation_links (xs : List Entry) : List Entry :=
  xs.filter (fun e => !isNavigationEntry e)

/-- Deduplication key: the `url` value of a record (source line 261). -/
def mangaKey (m : MangaRecord) : Option String := m.url

/-- Loop of the deduplication step of `main` (source lines 257-263), with
the `unique_urls` set modelled as the list of keys seen so far. -/
def dedupeAux (seen : List (Option String)) : List MangaRecord → List MangaRecord
  | [] => []
  | m :: ms =>
    if mangaKey m ∈ seen then dedupeAux seen ms
    else m :: dedupeAux (mangaKey m :: seen) ms

/-- Embedding of the URL based deduplication of `main` (source lines
257-265). -/
def dedupe (ms : List MangaRecord) : List MangaRecord := dedupeAux [] ms

/-- Events of the main crawl loop, abstracting pages by their index from the
start page and items by their index within a page:  list-page fetch,
per-item detail fetch, the randomized per-item delay (source lines
234-237), the per-page checkpoint write, and the randomized per-page delay
(source lines 251-255). -/
inductive Ev where
  | fetchList (p : Nat)
  | fetchDetail (p i : Nat)
  | itemDelay (p i : Nat)
  | save (p : Nat)
  | pageDelay (p : Nat)
deriving DecidableEq, Repr

/-- Events of the per-item loop of `main` (source lines 228-242) for one
page, by remaining item count: each iteration fetches the detail page and
then sleeps a per-item delay exactly when it is not the last item of the
page (`if i < len(page_manga_list) - 1`). -/
def itemsAux (p i : Nat) : Nat → List Ev
  | 0 => []
  | k + 1 => .fetchDetail p i :: ((if k = 0 then [] else [.itemDelay p i]) ++ itemsAux p (i + 1) k)

/-- Events of one iteration of the page loop of `main` (source lines
216-255): fetch the list page, process its items, write the page
checkpoint, and sleep a per-page delay exactly when this is not the last
page (`if page < MAX_PAGES`). -/
def pageTrace (p n : Nat) (isLast : Bool) : List Ev :=
  .fetchList p :: (itemsAux p 0 n ++ ([.save p] ++ (if isLast then [] else [.pageDelay p])))

/-- Events of the page loop from page index `p` on, given the item count of
each remaining page. -/
def runTraceAux (p : Nat) : List Nat → List Ev
  | [] => []
  | n :: ns => pageTrace p n ns.isEmpty ++ runTraceAux (p + 1) ns

/-- Event trace of a whole run of `main`, given the item count of each page
in the processed range (pages indexed from 0). -/
def runTrace (ns : List Nat) : List Ev := runTraceAux 0 ns

/-- Model of `random.uniform(lo, hi)` with the randomness `r` drawn from
the unit interval made explicit. -/
def pyUniform (lo hi r : ℚ) : ℚ := lo + (hi - lo) * r

/-- Whether an event is one of the two randomized delays. -/
def isDelayEv : Ev → Bool
  | .itemDelay _ _ => true
  | .pageDelay _ => true
  | _ => false

/-- Whether an event is a per-item delay. -/
def isItemDelayEv : Ev → Bool
  | .itemDelay _ _ => true
  | _ => false

/-- JSON string escaping as performed by `json.dump` with
`ensure_ascii=False`: only the quote, the backslash and control characters
are escaped; every other character, in particular every non-ASCII
character, is emitted verbatim. -/
def jsonEscapeChar (c : Char) : List Char :=
  if c = '"' then ['\\', '"']
  else if c = '\\' then ['\\', '\\']
  else if c = '\n' then ['\\', 'n']
  else if c = '\t' then ['\\', 't']
  else if c = '\r' then ['\\', 'r']
  else if c = (Char.ofNat 8) then ['\\', 'b']
  else if c = (Char.ofNat 12) then ['\\', 'f']
  else if c.toNat < 32 then
    ['\\', 'u', '0', '0', Nat.digitChar (c.toNat / 16), Nat.digitChar (c.toNat % 16)]
  else [c]

/-- A JSON string literal for `s`. -/
def jsonStr (s : String) : String :=
  "\"" ++ String.mk (s.data.flatMap jsonEscapeChar) ++ "\""

/-- Decimal rendering of a nonnegative scaled integer `num / 10^k` with
`k` fractional digits. -/
def renderPosDec (num k : Nat) : String :=
  let fs := toString (num % 10 ^ k)
  toString (num / 10 ^ k) ++ "." ++ (String.mk (List.replicate (k - fs.length) '0') ++ fs)

/-- JSON rendering of a rating number, mirroring the repr of a Python float
for the decimal values produced by the rating parser (denominator dividing
a power of ten). -/
def renderNum (q : ℚ) : String :=
  let sign := if q < 0 then "-" else ""
  let n := q.num.natAbs
  if q.den = 1 then sign ++ toString n ++ ".0"
  else
    match (List.range 40).find? (fun k => 10 ^ k % q.den = 0) with
    | some k => sign ++ renderPosDec (n * (10 ^ k / q.den)) k
    | none => sign ++ toString n

/-- JSON rendering of a string-or-null value. -/
def renderOptStr : Option String → String
  | some s => jsonStr s
  | none => "null"

/-- JSON rendering of a list of strings as `json.dump` with `indent=2`
prints it in field position of a record (items at depth three, closing
bracket at depth two). -/
def renderStrList (xs : List String) : String :=
  if xs.isEmpty then "[]"
  else "[\n" ++ String.intercalate ",\n" (xs.map (fun s => "      " ++ jsonStr s)) ++ "\n    ]"

/-- The key-value pairs of one record in dict insertion order: the stub keys
first, then each detail key that is present (`extract_manga_details` sets
them in this order on success, and only `genres` on failure). -/
def recordFields (r : MangaRecord) : List (String × String) :=
  [("title", jsonStr r.title), ("url", renderOptStr r.url), ("cover_url", renderOptStr r.cover_url)]
  ++ (match r.synopsis with | some s => [("synopsis", jsonStr s)] | none => [])
  ++ (match r.author with | some a => [("author", renderStrList a)] | none => [])
  ++ (match r.genres with | some g => [("genres", renderStrList g)] | none => [])
  ++ (match r.cover_image with | some c => [("cover_image", jsonStr c)] | none => [])
  ++ (match r.rating with
      | some (some q) => [("rating", renderNum q)]
      | some none => [("rating", "null")]
      | none => [])
  ++ (match r.status with | some s => [("status", jsonStr s)] | none => [])

/-- JSON rendering of one record as `json.dump` with `indent=2` prints a
dict nested in the top-level array. -/
def renderRecord (r : MangaRecord) : String :=
  "\x7b\n"
  ++ String.intercalate ",\n" ((recordFields r).map (fun kv => "    \"" ++ kv.1 ++ "\": " ++ kv.2))
  ++ "\n  \x7d"

/-- The full file content written by `save_to_json` (source line 192):
`json.dump(data, f, indent=2, ensure_ascii=False)` of the record list. -/
def serializeJson (rs : List MangaRecord) : String :=
  if rs.isEmpty then "[]"
  else "[\n" ++ String.intercalate ",\n" (rs.map (fun r => "  " ++ renderRecord r)) ++ "\n]"

/-- A model filesystem: the set of existing directories and the files with
their contents. -/
structure FS where
  dirs : List String
  files : List (String × String)
deriving DecidableEq, Repr

/-- Model of `os.path.dirname` on the (absolute) target path. -/
def dirname (path : String) : String :=
  let parts := path.splitOn "/"
  if parts.length ≤ 1 then "" else String.intercalate "/" parts.dropLast

/-- Model of `os.makedirs(d, exist_ok=True)` (source line 189). -/
def makedirs (fs : FS) (d : String) : FS :=
  if d ∈ fs.dirs then fs else { dirs := d :: fs.dirs, files := fs.files }

/-- Model of opening and writing the output file (source lines 191-192);
`ioFail` makes the write raise, modelling an I/O error. -/
def fsWrite (fs : FS) (ioFail : Bool) (name content : String) : Except String FS :=
  if ioFail then .error "I/O error"
  else .ok { dirs := fs.dirs, files := (name, content) :: fs.files }

/-- Embedding of `save_to_json` (source lines 185-195): create the target
directory if absent, then write the serialized records; the `except` branch
catches any write error, prints it, and returns normally, leaving the
filesystem as it was after the directory creation.  The second component is
the list of printed messages. -/
def save_to_json (fs : FS) (ioFail : Bool) (data : List MangaRecord)
    (filename : String) : FS × List String :=
  let fs1 := makedirs fs (dirname filename)
  match fsWrite fs1 ioFail filename (serializeJson data) with
  | .ok fs2 =>
    (fs2, ["Successfully saved " ++ toString data.length ++ " manga items to " ++ filename])
  | .error e =>
    (fs1, ["Error saving data to " ++ filename ++ ": " ++ e])

/-- Example record with a first URL. -/
def rec1 : MangaRecord :=
  { title := "A", url := some "https://mangareader.to/a", cover_url := none,
    synopsis := none, author := none, genres := none,
    cover_image := none, rating := none, status := none }

/-- Example record with a second URL. -/
def rec2 : MangaRecord :=
  { title := "B", url := some "https://mangareader.to/b", cover_url := none,
    synopsis := none, author := none, genres := none,
    cover_image := none, rating := none, status := none }

/-- Example record duplicating the URL of `rec1` under another title. -/
def rec3 : MangaRecord :=
  { title := "A again", url := some "https://mangareader.to/a", cover_url := none,
    synopsis := none, author := none, genres := none,
    cover_image := none, rating := none, status := none }

/-- Example record list with a duplicated URL. -/
def dupList : List MangaRecord := [rec1, rec2, rec3]

theorem dedupeAux_sublist (seen : List (Option String)) (ms : List MangaRecord) :
    List.Sublist (dedupeAux seen ms) ms := by
  induction ms generalizing seen with
  | nil => simp [dedupeAux]
  | cons m ms ih =>
    simp only [dedupeAux]
    split
    · exact .cons m (ih seen)
    · exact .cons₂ m (ih _)

theorem mem_dedupeAux_notin_seen {m : MangaRecord} (seen : List (Option String))
    (ms : List MangaRecord) (h : m ∈ dedupeAux seen ms) : mangaKey m ∉ seen := by
  induction ms generalizing seen with
  | nil => simp [dedupeAux] at h
  | cons x xs ih =>
    simp only [dedupeAux] at h
    split at h
    · exact ih seen h
    · rcases List.mem_cons.mp h with rfl | hmem
      · assumption
      · intro hin
        exact ih _ hmem (List.mem_cons_of_mem _ hin)

theorem dedupeAux_keys_nodup (ms : List MangaRecord) (seen : List (Option String)) :
    ((dedupeAux seen ms).map mangaKey).Nodup := by
  induction ms generalizing seen with
  | nil => simp [dedupeAux]
  | cons x xs ih =>
    simp only [dedupeAux]
    split
    · exact ih seen
    · refine List.nodup_cons.mpr ⟨?_, ih _⟩
      intro hmem
      rcases List.mem_map.mp hmem with ⟨m, hm, hk⟩
      exact mem_dedupeAux_notin_seen _ _ hm (by simp [hk])

theorem mem_dedupeAux_iff {m : MangaRecord} (seen : List (Option String))
    (ms : List MangaRecord) :
    m ∈ dedupeAux seen ms ↔
      mangaKey m ∉ seen ∧ (ms.find? fun x => decide (mangaKey x = mangaKey m)) = some m := by
  induction ms generalizing seen with
  | nil => simp [dedupeAux]
  | cons x xs ih =>
    by_cases hk : mangaKey x = mangaKey m
    · by_cases hx : mangaKey x ∈ seen
      · rw [dedupeAux, if_pos hx, ih]
        have hm : mangaKey m ∈ seen := hk ▸ hx
        constructor
        · rintro ⟨hns, _⟩; exact absurd hm hns
        · rintro ⟨hns, _⟩; exact absurd hm hns
      · rw [dedupeAux, if_neg hx, List.find?_cons_of_pos _ (by simpa using hk)]
        have hmns : mangaKey m ∉ seen := hk ▸ hx
        constructor
        · intro hmem
          rcases List.mem_cons.mp hmem with rfl | hmem2
          · exact ⟨hmns, rfl⟩
          · have hns := mem_dedupeAux_notin_seen _ _ hmem2
            exact absurd (by simp [hk]) hns
        · rintro ⟨_, hsome⟩
          exact List.mem_cons.mpr (Or.inl (Option.some.inj hsome).symm)
    · have hfind : ((x :: xs).find? fun y => decide (mangaKey y = mangaKey m)) =
          xs.find? fun y => decide (mangaKey y = mangaKey m) :=
        List.find?_cons_of_neg _ (by simpa using hk)
      by_cases hx : mangaKey x ∈ seen
      · rw [dedupeAux, if_pos hx, ih, hfind]
      · rw [dedupeAux, if_neg hx, hfind]
        constructor
        · intro hmem
          rcases List.mem_cons.mp hmem with rfl | hmem2
          · exact absurd rfl hk
          · obtain ⟨hns, hf⟩ := (ih _).mp hmem2
            exact ⟨fun hin => hns (List.mem_cons_of_mem _ hin), hf⟩
        · rintro ⟨hns, hf⟩
          refine List.mem_cons.mpr (Or.inr ((ih _).mpr ⟨?_, hf⟩))
          intro hin
          rcases List.mem_cons.mp hin with he | he
          · exact hk he.symm
          · exact hns he

theorem dedupeAux_eq_self (ms : List MangaRecord) (seen : List (Option String))
    (hnd : (ms.map mangaKey).Nodup) (hdisj : ∀ m ∈ ms, mangaKey m ∉ seen) :
    dedupeAux seen ms = ms := by
  induction ms generalizing seen with
  | nil => simp [dedupeAux]
  | cons x xs ih =>
    have hx : mangaKey x ∉ seen := hdisj x (List.mem_cons_self x xs)
    simp only [dedupeAux, if_neg hx]
    congr 1
    refine ih _ ((List.nodup_cons.mp (by simpa using hnd)).2) ?_
    intro m hm
    simp only [List.mem_cons, not_or]
    refine ⟨?_, hdisj m (List.mem_cons_of_mem _ hm)⟩
    intro he
    exact (List.nodup_cons.mp (by simpa using hnd)).1 (he ▸ List.mem_map_of_mem mangaKey hm)

/-- C1: for every list of records, the deduplication step of `main` yields a
list with pairwise distinct `url` keys, that is a subsequence of the input,
and whose members are exactly the first-occurring record of each distinct
`url`, in first-seen order. -/
theorem dedupe_spec (ms : List MangaRecord) :
    ((dedupe ms).map mangaKey).Nodup ∧ List.Sublist (dedupe ms) ms ∧
      (∀ m, m ∈ dedupe ms ↔
        (ms.find? fun x => decide (mangaKey x = mangaKey m)) = some m) := by
  refine ⟨dedupeAux_keys_nodup ms [], dedupeAux_sublist [] ms, fun m => ?_⟩
  rw [dedupe, mem_dedupeAux_iff]
  simp

/-- Witness for C1 on a concrete list with a duplicated URL. -/
theorem dedupe_spec_witness :
    ((dedupe dupList).map mangaKey).Nodup ∧ List.Sublist (dedupe dupList) dupList ∧
      (rec3 ∈ dedupe dupList ↔
        (dupList.find? fun x => decide (mangaKey x = mangaKey rec3)) = some rec3) ∧
      dedupe dupList = [rec1, rec2] :=
  ⟨(dedupe_spec dupList).1, (dedupe_spec dupList).2.1,
    (dedupe_spec dupList).2.2 rec3, by decide⟩

/-- C6: deduplication is idempotent: applying the dedupe step of `main` to
its own output returns that output unchanged. -/
theorem dedupe_idempotent (ms : List MangaRecord) : dedupe (dedupe ms) = dedupe ms := by
  refine dedupeAux_eq_self _ _ (dedupeAux_keys_nodup ms []) ?_
  simp

theorem count_filter_split {α : Type} [DecidableEq α] (p : α → Bool) (xs : List α) (a : α) :
    (xs.filter p).count a = if p a then xs.count a else 0 := by
  by_cases h : p a
  · simp [h, List.count_filter]
  · simp [h, List.count_eq_zero]

/-- C5: `filter_navigation_links` removes exactly the entries that are dicts
with a `url` field containing `"az-list"`; every other entry, including
dicts without a `url` field and non-dict entries, passes through with its
multiplicity, and the output is a subsequence of the input (relative order
preserved). -/
theorem filter_nav_spec (xs : List Entry) :
    List.Sublist (filter_navigation_links xs) xs ∧
    (∀ u, containsSub azList.data u.data = true →
      (filter_navigation_links xs).count (Entry.dictE (some u)) = 0) ∧
    (∀ u, containsSub azList.data u.data = false →
      (filter_navigation_links xs).count (Entry.dictE (some u)) =
        xs.count (Entry.dictE (some u))) ∧
    (filter_navigation_links xs).count (Entry.dictE none) = xs.count (Entry.dictE none) ∧
    (filter_navigation_links xs).count Entry.other = xs.count Entry.other := by
  refine ⟨List.filter_sublist xs, ?_, ?_, ?_, ?_⟩
  · intro u hu
    simp [filter_navigation_links, count_filter_split, isNavigationEntry, hu]
  · intro u hu
    simp [filter_navigation_links, count_filter_split, isNavigationEntry, hu]
  · simp [filter_navigation_links, count_filter_split, isNavigationEntry]
  · simp [filter_navigation_links, count_filter_split, isNavigationEntry]

/-- Example entry list mixing a navigation link, a real item link, a dict
without a url, and a non-dict entry. -/
def navExs : List Entry :=
  [Entry.dictE (some "https://mangareader.to/az-list?page=2"),
   Entry.dictE (some "https://mangareader.to/one-piece-3"),
   Entry.dictE none, Entry.other]

/-- Witness for C5 on the concrete entry list. -/
theorem filter_nav_spec_witness :
    (filter_navigation_links navExs).count
        (Entry.dictE (some "https://mangareader.to/az-list?page=2")) = 0 ∧
    (filter_navigation_links navExs).count
        (Entry.dictE (some "https://mangareader.to/one-piece-3")) =
      navExs.count (Entry.dictE (some "https://mangareader.to/one-piece-3")) ∧
    List.Sublist (filter_navigation_links navExs) navExs ∧
    filter_navigation_links navExs =
      [Entry.dictE (some "https://mangareader.to/one-piece-3"), Entry.dictE none, Entry.other] :=
  ⟨(filter_nav_spec navExs).2.1 _ (by decide), (filter_nav_spec navExs).2.2.1 _ (by decide),
    (filter_nav_spec navExs).1, by decide⟩

theorem searchNum_eq_none_of_no_digit (cs : List Char)
    (h : ∀ c ∈ cs, c.isDigit = false) : searchNum cs = none := by
  induction cs with
  | nil => rfl
  | cons c cs ih =>
    have hc : c.isDigit = false := h c (List.mem_cons_self c cs)
    have hm : matchNum (c :: cs) = none := by
      simp [matchNum, List.takeWhile_cons, hc]
    simp only [searchNum, hm]
    exact ih fun d hd => h d (List.mem_cons_of_mem _ hd)

theorem mem_stripChars {c : Char} {cs : List Char} (h : c ∈ stripChars cs) : c ∈ cs := by
  unfold stripChars at h
  rw [List.mem_reverse] at h
  have h1 := (List.dropWhile_sublist _).subset h
  rw [List.mem_reverse] at h1
  exact (List.dropWhile_sublist _).subset h1

theorem parseFloatStr_nonneg (cs : List Char) : 0 ≤ parseFloatStr cs := by
  unfold parseFloatStr
  positivity

theorem extractRating_85 : extractRating (some "8.5/10") = some ((17 : ℚ) / 2) := by
  have hsearch : searchNum (pyStrip "8.5/10").data = some ['8', '.', '5'] := by decide
  have h1 : List.takeWhile Char.isDigit ['8', '.', '5'] = ['8'] := by decide
  have h2 : List.drop (List.takeWhile Char.isDigit ['8', '.', '5']).length ['8', '.', '5']
      = ['.', '5'] := by decide
  have h3 : List.takeWhile Char.isDigit ['5'] = ['5'] := by decide
  have h4 : digitsToNat ['8'] = 8 := by decide
  have h5 : digitsToNat ['5'] = 5 := by decide
  simp only [extractRating, hsearch, Option.some.injEq]
  rw [parseFloatStr, h2]
  simp only [h1, h3, h4, h5, List.length_cons, List.length_nil]
  norm_num

theorem extractRating_9 : extractRating (some "9") = some (9 : ℚ) := by
  have hsearch : searchNum (pyStrip "9").data = some ['9'] := by decide
  have h1 : List.takeWhile Char.isDigit ['9'] = ['9'] := by decide
  have h2 : List.drop (List.takeWhile Char.isDigit ['9']).length ['9'] = [] := by decide
  have h4 : digitsToNat ['9'] = 9 := by decide
  have h5 : digitsToNat ([] : List Char) = 0 := by decide
  simp only [extractRating, hsearch, Option.some.injEq]
  rw [parseFloatStr, h2]
  simp only [h1, h4, h5, List.length_nil]
  norm_num

/-- C3: the rating extracted by `extract_manga_details` is `None` when the
rating element is absent or its text contains no digit; it is the float
value of the first decimal-number substring otherwise (so `"8.5/10"` gives
`8.5` and `"9"` gives `9.0`); and any non-`None` rating is nonnegative. -/
theorem rating_spec :
    (∀ t : String, (∀ c ∈ t.data, c.isDigit = false) → extractRating (some t) = none) ∧
    extractRating none = none ∧
    extractRating (some "8.5/10") = some ((17 : ℚ) / 2) ∧
    extractRating (some "9") = some (9 : ℚ) ∧
    (∀ t q, extractRating (some t) = some q → 0 ≤ q) ∧
    (∀ url b doc,
      (extract_manga_details url b (some doc)).rating = some (extractRating doc.ratingEl)) := by
  refine ⟨?_, rfl, extractRating_85, extractRating_9, ?_, ?_⟩
  · intro t ht
    have hs : searchNum (pyStrip t).data = none := by
      apply searchNum_eq_none_of_no_digit
      intro c hc
      exact ht c (mem_stripChars hc)
    simp [extractRating, hs]
  · intro t q h
    simp only [extractRating] at h
    rcases hs : searchNum (pyStrip t).data with _ | m <;> rw [hs] at h
    · simp at h
    · simp only [Option.some.injEq] at h
      exact h ▸ parseFloatStr_nonneg m
  · intro url b doc
    rfl

/-- Witness for C3: a digit-free text gives no rating, and the sample
texts give their documented values. -/
theorem rating_spec_witness :
    extractRating (some "no rating") = none ∧
    extractRating (some "8.5/10") = some ((17 : ℚ) / 2) ∧
    (0 : ℚ) ≤ 17 / 2 :=
  ⟨rating_spec.1 "no rating" (by decide), rating_spec.2.2.1,
    rating_spec.2.2.2.2.1 "8.5/10" _ rating_spec.2.2.1⟩

/-- C2 counterexample: on a failed detail fetch the returned record does not
carry the documented defaults for synopsis, authors, rating or status; only
`genres` is set (to the empty list), exactly as the except branch of
`extract_manga_details` does. -/
theorem details_failure_counterexample :
    (extract_manga_details (some "https://mangareader.to/a") rec1 none).synopsis ≠
        some "Not available" ∧
    (extract_manga_details (some "https://mangareader.to/a") rec1 none).author ≠
        some ["Unknown"] ∧
    (extract_manga_details (some "https://mangareader.to/a") rec1 none).rating ≠ some none ∧
    (extract_manga_details (some "https://mangareader.to/a") rec1 none).status ≠
        some "Unknown" ∧
    (extract_manga_details (some "https://mangareader.to/a") rec1 none).genres = some [] := by
  refine ⟨?_, ?_, ?_, ?_, rfl⟩ <;> decide

/-- C2 (amended): when detail extraction fails entirely, the stub is
returned augmented only with an empty `genres` field; every other field is
exactly exactly that of the stub (the other detail keys stay absent); the error is not
propagated (the function returns a record) and the per-item loop of `main`
still appends a record for the stub, so the run continues. -/
theorem details_failure_amended :
    (∀ url b, extract_manga_details url b none = { b with genres := some [] }) ∧
    (∀ fetch ms, (processPageItems fetch ms).length = ms.length) ∧
    (∀ fetch ms m, m ∈ ms → fetch m = none →
      ({ m with genres := some [] } : MangaRecord) ∈ processPageItems fetch ms) := by
  refine ⟨fun url b => rfl, fun fetch ms => List.length_map ms _, ?_⟩
  intro fetch ms m hm hf
  have he : extract_manga_details m.url m (fetch m) = { m with genres := some [] } := by
    rw [hf]
    rfl
  exact he ▸ List.mem_map_of_mem _ hm

/-- Witness for the amended C2 at a concrete stub and an always-failing
fetch. -/
theorem details_failure_amended_witness :
    extract_manga_details (some "https://mangareader.to/a") rec1 none =
        { rec1 with genres := some [] } ∧
    ({ rec1 with genres := some [] } : MangaRecord) ∈
      processPageItems (fun _ => none) [rec1] :=
  ⟨details_failure_amended.1 (some "https://mangareader.to/a") rec1,
    details_failure_amended.2.2 (fun _ => none) [rec1] rec1 (List.mem_cons_self rec1 []) rfl⟩

/-- Example item node whose only anchor is the generic one. -/
def nodeEx : ItemNode :=
  { posterLink := none, posterLink2 := none,
    anyAnchor := some { href := some "/x", text := " X ", imgChild := none },
    titleSel1 := none, titleSel2 := none }

/-- Second example item node with an anchor. -/
def nodeEx2 : ItemNode :=
  { posterLink := none, posterLink2 := none,
    anyAnchor := some { href := some "/y", text := "Y", imgChild := none },
    titleSel1 := none, titleSel2 := none }

/-- Example item node with no anchor element at all. -/
def nodeNoAnchor : ItemNode :=
  { posterLink := none, posterLink2 := none, anyAnchor := none,
    titleSel1 := none, titleSel2 := none }

/-- Example list page with three item nodes, one of which has no anchor. -/
def listDocEx : ListDoc :=
  { itemListItems := [nodeEx, nodeNoAnchor, nodeEx2],
    bookItems := [], mangaItems := [], items := [] }

/-- Example list page on which every item selector matches nothing. -/
def emptyListDoc : ListDoc :=
  { itemListItems := [], bookItems := [], mangaItems := [], items := [] }

theorem extractNode_none_of_no_link {nd : ItemNode} (hr : resolveLink nd = none) :
    extractNode nd = none := by
  simp [extractNode, hr]

theorem length_filterMap_extractNode (nds : List ItemNode) :
    (nds.filterMap extractNode).length =
      (nds.filter (fun nd => (resolveLink nd).isSome)).length := by
  induction nds with
  | nil => rfl
  | cons nd nds ih =>
    rcases hr : resolveLink nd with _ | link
    · rw [List.filterMap_cons, extractNode_none_of_no_link hr]
      simp [List.filter_cons, hr, ih]
    · have he : (extractNode nd).isSome := by simp [extractNode, hr]
      rcases hx : extractNode nd with _ | s
      · rw [hx] at he
        simp at he
      · rw [List.filterMap_cons, hx]
        simp [List.filter_cons, hr, ih]

/-- C7: `extract_manga_list` returns the empty list on a failed fetch and on
a page where no item selector matches; a node without a resolvable link is
skipped while the rest are extracted, so the output length is the number of
nodes with a link; in particular the example page with three nodes of which
one has no anchor yields exactly two stubs. -/
theorem extract_list_spec :
    extract_manga_list none = [] ∧
    (∀ doc, selectElements doc = [] → extract_manga_list (some doc) = []) ∧
    (∀ doc, (extract_manga_list (some doc)).length =
      ((selectElements doc).filter (fun nd => (resolveLink nd).isSome)).length) ∧
    (extract_manga_list (some listDocEx)).length = 2 := by
  refine ⟨rfl, ?_, ?_, by decide⟩
  · intro doc hd
    simp [extract_manga_list, hd]
  · intro doc
    exact length_filterMap_extractNode _

/-- Witness for C7 at the concrete empty page and the three-node page. -/
theorem extract_list_spec_witness :
    extract_manga_list (some emptyListDoc) = [] ∧
    (extract_manga_list (some listDocEx)).length = 2 :=
  ⟨extract_list_spec.2.1 emptyListDoc rfl, extract_list_spec.2.2.2⟩

/-- C10: every stub emitted by the per-node extraction has a resolved title
element (the fallback chain ends in the link element, which is present for
every emitted stub), and its title is the stripped text of that element, so
the `"Unknown Title"` default branch is never taken for an emitted stub. -/
theorem title_default_unreachable (nd : ItemNode) (s : MangaRecord)
    (h : extractNode nd = some s) :
    ∃ e, titleElemOf nd = some e ∧ s.title = pyStrip e.text := by
  rcases hr : resolveLink nd with _ | link
  · rw [extractNode_none_of_no_link hr] at h
    exact absurd h (by simp)
  · simp only [extractNode, hr] at h
    rcases h1 : nd.titleSel1 with _ | t1
    · rcases h2 : nd.titleSel2 with _ | t2
      · refine ⟨link, by simp [titleElemOf, pyOrOpt, h1, h2, hr], ?_⟩
        rw [h1, h2] at h
        simp only [pyOrOpt] at h
        exact (Option.some.inj h).symm ▸ rfl
      · refine ⟨t2, by simp [titleElemOf, pyOrOpt, h1, h2], ?_⟩
        rw [h1, h2] at h
        simp only [pyOrOpt] at h
        exact (Option.some.inj h).symm ▸ rfl
    · refine ⟨t1, by simp [titleElemOf, pyOrOpt, h1], ?_⟩
      rw [h1] at h
      simp only [pyOrOpt] at h
      exact (Option.some.inj h).symm ▸ rfl

/-- Witness for C10 at a concrete node whose stub is extracted. -/
theorem title_default_unreachable_witness :
    ∃ e, titleElemOf nodeEx = some e ∧
      ({ title := "X", url := some "https://mangareader.to/x", cover_url := none,
         synopsis := none, author := none, genres := none, cover_image := none,
         rating := none, status := none } : MangaRecord).title = pyStrip e.text :=
  title_default_unreachable nodeEx _ (by decide)

/-- The six genre selector chains in the order the source tries them. -/
def genreChains (doc : DetailDoc) : List (List String) :=
  [doc.genresPrimary, doc.genresAlt1, doc.genresAlt2,
   doc.genresLoop1, doc.genresLoop2, doc.genresLoop3]

/-- Definition following the words of the specification, for comparison
with the extraction code: the stripped texts of the first genre selector
chain that yields matches, or `none` when no chain matches. -/
def genresSpecFirstChain (doc : DetailDoc) : Option (List String) :=
  ((genreChains doc).find? (fun c => !c.isEmpty)).map (List.map pyStrip)

theorem extractGenres_eq (doc : DetailDoc) :
    extractGenres doc = (genresSpecFirstChain doc).getD [] := by
  rcases doc with ⟨syn, au, p, a1, a2, l1, l2, l3, cov, rat, st, st2⟩
  cases p <;> cases a1 <;> cases a2 <;> cases l1 <;> cases l2 <;> cases l3 <;>
    simp [extractGenres, genresSpecFirstChain, genreChains, pyOrList, List.find?]

/-- Example detail page on which no selector matches anything. -/
def emptyDetailDoc : DetailDoc :=
  { synopsisEl := none, authorEl := none, genresPrimary := [], genresAlt1 := [],
    genresAlt2 := [], genresLoop1 := [], genresLoop2 := [], genresLoop3 := [],
    coverEl := none, ratingEl := none, statusEl := none, statusEl2 := none }

/-- Example detail page whose primary genre selector matches two elements
with unstripped texts. -/
def genresDocEx : DetailDoc :=
  { emptyDetailDoc with genresPrimary := ["Action ", " Comedy"] }

/-- C4: when no genre selector chain matches, the genres field of the produced record
field is the empty sequence (present, never null) and the absence is among
the printed messages; when some chain matches, the genres field is the
stripped texts of the first matching chain. -/
theorem genres_spec (b : MangaRecord) (doc : DetailDoc) :
    (genresSpecFirstChain doc = none →
      (extract_manga_details b.url b (some doc)).genres = some [] ∧
      ("No genres found for " ++ b.title) ∈ extract_manga_details_msgs b.url b (some doc)) ∧
    (∀ g, genresSpecFirstChain doc = some g →
      (extract_manga_details b.url b (some doc)).genres = some g) := by
  have hfield : (extract_manga_details b.url b (some doc)).genres =
      some (extractGenres doc) := rfl
  constructor
  · intro hn
    have h0 : extractGenres doc = [] := by
      rw [extractGenres_eq, hn]
      rfl
    refine ⟨by rw [hfield, h0], ?_⟩
    simp [extract_manga_details_msgs, h0]
  · intro g hg
    have h0 : extractGenres doc = g := by
      rw [extractGenres_eq, hg]
      rfl
    rw [hfield, h0]

/-- Witness for C4 at the selector-free page and at the page with a
matching primary chain. -/
theorem genres_spec_witness :
    (extract_manga_details rec1.url rec1 (some emptyDetailDoc)).genres = some [] ∧
    ("No genres found for " ++ rec1.title) ∈
      extract_manga_details_msgs rec1.url rec1 (some emptyDetailDoc) ∧
    (extract_manga_details rec1.url rec1 (some genresDocEx)).genres =
      some ["Action", "Comedy"] :=
  ⟨((genres_spec rec1 emptyDetailDoc).1 (by decide)).1,
    ((genres_spec rec1 emptyDetailDoc).1 (by decide)).2,
    (genres_spec rec1 genresDocEx).2 ["Action", "Comedy"] (by decide)⟩

theorem within_append_left {α : Type} {l a : List α} (b : List α) (h : l <:+: a) :
    l <:+: a ++ b := by
  obtain ⟨s, u, hs⟩ := h
  exact ⟨s, u ++ b, by rw [← hs]; simp [List.append_assoc]⟩

theorem within_append_right {α : Type} {l b : List α} (a : List α) (h : l <:+: b) :
    l <:+: a ++ b := by
  obtain ⟨s, u, hs⟩ := h
  exact ⟨a ++ s, u, by rw [← hs]; simp [List.append_assoc]⟩

theorem within_cons {α : Type} {l t : List α} (x : α) (h : l <:+: t) : l <:+: x :: t :=
  within_append_right [x] h

theorem itemsAux_head (p i k : Nat) (hk : 0 < k) :
    ∃ r, itemsAux p i k = Ev.fetchDetail p i :: r := by
  cases k with
  | zero => omega
  | succ k => exact ⟨_, rfl⟩

theorem itemsAux_triple (p : Nat) : ∀ (k i d : Nat), d + 1 < k →
    [Ev.fetchDetail p (i + d), Ev.itemDelay p (i + d), Ev.fetchDetail p (i + d + 1)] <:+:
      itemsAux p i k := by
  intro k
  induction k with
  | zero => intro i d h; omega
  | succ k ih =>
    intro i d h
    cases d with
    | zero =>
      have hk : k ≠ 0 := by omega
      obtain ⟨r, hr⟩ := itemsAux_head p (i + 1) k (by omega)
      simp only [itemsAux, if_neg hk, hr]
      refine ⟨[], r, ?_⟩
      simp
    | succ d =>
      have htr := ih (i + 1) d (by omega)
      have hidx : i + 1 + d = i + (d + 1) := by omega
      rw [hidx] at htr
      simp only [itemsAux]
      exact within_cons _ (within_append_right _ htr)

theorem runTraceAux_head (q n : Nat) (ns : List Nat) :
    ∃ r, runTraceAux q (n :: ns) = Ev.fetchList q :: r :=
  ⟨_, rfl⟩

theorem runTraceAux_ends_save (ns : List Nat) : ∀ q, ns ≠ [] →
    ∃ t, runTraceAux q ns = t ++ [Ev.save (q + ns.length - 1)] := by
  induction ns with
  | nil => intro q h; cases h rfl
  | cons n ns ih =>
    intro q _
    cases ns with
    | nil =>
      refine ⟨Ev.fetchList q :: itemsAux q 0 n, ?_⟩
      simp [runTraceAux, pageTrace]
    | cons m ns2 =>
      obtain ⟨t, ht⟩ := ih (q + 1) (by simp)
      have hlen : q + 1 + (m :: ns2).length - 1 = q + (n :: m :: ns2).length - 1 := by
        simp
        omega
      rw [hlen] at ht
      refine ⟨pageTrace q n false ++ t, ?_⟩
      have hrw : runTraceAux q (n :: m :: ns2) =
          pageTrace q n false ++ runTraceAux (q + 1) (m :: ns2) := rfl
      rw [hrw, ht, List.append_assoc]

theorem runTraceAux_triple_item (ns : List Nat) : ∀ q pg n, ns[pg]? = some n →
    ∀ i, i + 1 < n →
    [Ev.fetchDetail (q + pg) i, Ev.itemDelay (q + pg) i, Ev.fetchDetail (q + pg) (i + 1)] <:+:
      runTraceAux q ns := by
  induction ns with
  | nil => intro q pg n h; simp at h
  | cons n0 ns ih =>
    intro q pg n h i hi
    cases pg with
    | zero =>
      simp only [List.getElem?_cons_zero, Option.some.injEq] at h
      subst h
      have htr := itemsAux_triple q n0 0 i hi
      simp only [Nat.zero_add] at htr
      have h1 := within_append_left
        ([Ev.save q] ++ (if ns.isEmpty then [] else [Ev.pageDelay q])) htr
      have h2 := within_cons (Ev.fetchList q) h1
      have h3 := within_append_left (runTraceAux (q + 1) ns) h2
      simp only [Nat.add_zero]
      exact h3
    | succ pg =>
      simp only [List.getElem?_cons_succ] at h
      have htr := ih (q + 1) pg n h i hi
      have hidx : q + 1 + pg = q + (pg + 1) := by omega
      rw [hidx] at htr
      exact within_append_right _ htr

theorem runTraceAux_page_boundary (ns : List Nat) : ∀ q pg, pg + 1 < ns.length →
    [Ev.save (q + pg), Ev.pageDelay (q + pg), Ev.fetchList (q + pg + 1)] <:+:
      runTraceAux q ns := by
  induction ns with
  | nil => intro q pg h; simp at h
  | cons n ns ih =>
    intro q pg h
    cases pg with
    | zero =>
      cases ns with
      | nil => simp at h
      | cons m ns2 =>
        obtain ⟨r, hr⟩ := runTraceAux_head (q + 1) m ns2
        refine ⟨Ev.fetchList q :: itemsAux q 0 n, r, ?_⟩
        rw [show runTraceAux q (n :: m :: ns2) =
              pageTrace q n false ++ runTraceAux (q + 1) (m :: ns2) from rfl, hr, pageTrace]
        simp [List.append_assoc]
    | succ pg =>
      have h2 : pg + 1 < ns.length := by simp at h; omega
      have htr := ih (q + 1) pg h2
      have hidx : q + 1 + pg = q + (pg + 1) := by omega
      rw [hidx] at htr
      exact within_append_right _ htr

theorem runTraceAux_first_item (ns : List Nat) : ∀ q pg n, ns[pg]? = some n → 0 < n →
    [Ev.fetchList (q + pg), Ev.fetchDetail (q + pg) 0] <:+: runTraceAux q ns := by
  induction ns with
  | nil => intro q pg n h; simp at h
  | cons n0 ns ih =>
    intro q pg n h hn
    cases pg with
    | zero =>
      simp only [List.getElem?_cons_zero, Option.some.injEq] at h
      subst h
      obtain ⟨r, hr⟩ := itemsAux_head q 0 n0 hn
      refine ⟨[], (r ++ ([Ev.save q] ++ (if ns.isEmpty then [] else [Ev.pageDelay q])))
        ++ runTraceAux (q + 1) ns, ?_⟩
      rw [show runTraceAux q (n0 :: ns) = pageTrace q n0 ns.isEmpty ++ runTraceAux (q + 1) ns
            from rfl, pageTrace, hr]
      simp [List.append_assoc]
    | succ pg =>
      simp only [List.getElem?_cons_succ] at h
      have htr := ih (q + 1) pg n h hn
      have hidx : q + 1 + pg = q + (pg + 1) := by omega
      rw [hidx] at htr
      exact within_append_right _ htr

/-- C8 counterexample: in a run with two pages of one item each, the detail fetch of the second
page is not the first item of the first page, yet no
per-item delay occurs anywhere in the trace, and the event immediately
before that fetch is the list fetch of page two, not a delay. -/
theorem rate_limit_counterexample :
    Ev.fetchDetail 1 0 ∈ runTrace [1, 1] ∧
    (runTrace [1, 1]).countP isItemDelayEv = 0 ∧
    (runTrace [1, 1])[4]? = some (Ev.fetchList 1) ∧
    (runTrace [1, 1])[5]? = some (Ev.fetchDetail 1 0) ∧
    isDelayEv (Ev.fetchList 1) = false := by
  decide

/-- C8 (amended): the run trace starts with the first list fetch (no delay
before it) and ends with the checkpoint write of the final page (no delay after
the final page); a per-item delay lies between each pair of consecutive
detail fetches within a page; a per-page delay lies between the write of each page
and the list fetch of the next page; the first detail fetch of every page
follows its list fetch immediately, with no per-item delay before it; and
each delay drawn with randomness in the unit interval lies within its
configured inclusive range ([2,4] per item, [3,6] per page). -/
theorem rate_limit_schedule :
    (∀ n ns, ∃ r, runTrace (n :: ns) = Ev.fetchList 0 :: r) ∧
    (∀ ns, ns ≠ [] → ∃ t, runTrace ns = t ++ [Ev.save (ns.length - 1)]) ∧
    (∀ ns pg n i, ns[pg]? = some n → i + 1 < n →
      [Ev.fetchDetail pg i, Ev.itemDelay pg i, Ev.fetchDetail pg (i + 1)] <:+: runTrace ns) ∧
    (∀ ns pg, pg + 1 < ns.length →
      [Ev.save pg, Ev.pageDelay pg, Ev.fetchList (pg + 1)] <:+: runTrace ns) ∧
    (∀ ns pg n, ns[pg]? = some n → 0 < n →
      [Ev.fetchList pg, Ev.fetchDetail pg 0] <:+: runTrace ns) ∧
    (∀ r : ℚ, 0 ≤ r → r ≤ 1 →
      2 ≤ pyUniform 2 4 r ∧ pyUniform 2 4 r ≤ 4 ∧
      3 ≤ pyUniform 3 6 r ∧ pyUniform 3 6 r ≤ 6) := by
  refine ⟨fun n ns => runTraceAux_head 0 n ns, ?_, ?_, ?_, ?_, ?_⟩
  · intro ns h
    simpa using runTraceAux_ends_save ns 0 h
  · intro ns pg n i h hi
    simpa using runTraceAux_triple_item ns 0 pg n h i hi
  · intro ns pg h
    simpa using runTraceAux_page_boundary ns 0 pg h
  · intro ns pg n h hn
    simpa using runTraceAux_first_item ns 0 pg n h hn
  · intro r h0 h1
    unfold pyUniform
    refine ⟨by nlinarith, by nlinarith, by nlinarith, by nlinarith⟩

/-- Witness for the amended C8 on a run with two pages of two items and one
item. -/
theorem rate_limit_schedule_witness :
    [Ev.fetchDetail 0 0, Ev.itemDelay 0 0, Ev.fetchDetail 0 1] <:+: runTrace [2, 1] ∧
    [Ev.save 0, Ev.pageDelay 0, Ev.fetchList 1] <:+: runTrace [2, 1] ∧
    [Ev.fetchList 1, Ev.fetchDetail 1 0] <:+: runTrace [2, 1] ∧
    (2 : ℚ) ≤ pyUniform 2 4 (1 / 2) ∧
    (∃ t, runTrace [2, 1] = t ++ [Ev.save 1]) :=
  ⟨rate_limit_schedule.2.2.1 [2, 1] 0 2 0 (by decide) (by decide),
   rate_limit_schedule.2.2.2.1 [2, 1] 0 (by decide),
   rate_limit_schedule.2.2.2.2.1 [2, 1] 1 1 (by decide) (by decide),
   (rate_limit_schedule.2.2.2.2.2 (1 / 2) (by norm_num) (by norm_num)).1,
   rate_limit_schedule.2.1 [2, 1] (by decide)⟩

theorem mem_makedirs (fs : FS) (d : String) : d ∈ (makedirs fs d).dirs := by
  unfold makedirs
  split
  · assumption
  · exact List.mem_cons_self _ _

theorem makedirs_files (fs : FS) (d : String) : (makedirs fs d).files = fs.files := by
  unfold makedirs
  split <;> rfl

theorem jsonEscapeChar_nonascii (c : Char) (h : 128 ≤ c.toNat) : jsonEscapeChar c = [c] := by
  have hq : ¬(c = '"') := fun he => absurd (he ▸ h) (by decide)
  have hbs : ¬(c = '\\') := fun he => absurd (he ▸ h) (by decide)
  have hn : ¬(c = '\n') := fun he => absurd (he ▸ h) (by decide)
  have ht : ¬(c = '\t') := fun he => absurd (he ▸ h) (by decide)
  have hr : ¬(c = '\r') := fun he => absurd (he ▸ h) (by decide)
  have h8 : ¬(c = Char.ofNat 8) := fun he => absurd (he ▸ h) (by decide)
  have h12 : ¬(c = Char.ofNat 12) := fun he => absurd (he ▸ h) (by decide)
  have hlt : ¬(c.toNat < 32) := by omega
  unfold jsonEscapeChar
  rw [if_neg hq, if_neg hbs, if_neg hn, if_neg ht, if_neg hr, if_neg h8, if_neg h12,
    if_neg hlt]

/-- C9: `save_to_json` creates the destination directory if absent; on
success the serialized record list (pretty-printed JSON array with
non-ASCII characters kept verbatim by the escaper) becomes the file content
and a success message is printed; on an I/O failure the function still
returns (the exception is caught), prints a failure message, and leaves the
stored files unchanged. -/
theorem save_spec (fs : FS) (ioFail : Bool) (data : List MangaRecord) (filename : String) :
    dirname filename ∈ (save_to_json fs ioFail data filename).1.dirs ∧
    (ioFail = false →
      (save_to_json fs ioFail data filename).1.files =
          (filename, serializeJson data) :: fs.files ∧
      ("Successfully saved " ++ toString data.length ++ " manga items to " ++ filename) ∈
        (save_to_json fs ioFail data filename).2) ∧
    (ioFail = true →
      (save_to_json fs ioFail data filename).1.files = fs.files ∧
      (save_to_json fs ioFail data filename).2 =
        ["Error saving data to " ++ filename ++ ": I/O error"]) ∧
    (∀ c : Char, 128 ≤ c.toNat → jsonEscapeChar c = [c]) := by
  refine ⟨?_, ?_, ?_, fun c h => jsonEscapeChar_nonascii c h⟩
  · cases ioFail <;> simp [save_to_json, fsWrite, mem_makedirs]
  · intro hf
    subst hf
    refine ⟨?_, by simp [save_to_json, fsWrite]⟩
    simp [save_to_json, fsWrite, makedirs_files]
  · intro hf
    subst hf
    constructor
    · simp [save_to_json, fsWrite, makedirs_files]
    · show ["Error saving data to " ++ filename ++ ": " ++ "I/O error"] = _
      rw [String.append_assoc]
      rfl

/-- Witness for C9 at a concrete failing write and a non-ASCII character. -/
theorem save_spec_witness :
    dirname "out/manga.json" ∈
      (save_to_json { dirs := [], files := [] } true [] "out/manga.json").1.dirs ∧
    (save_to_json { dirs := [], files := [] } true [] "out/manga.json").1.files = [] ∧
    jsonEscapeChar 'é' = ['é'] :=
  ⟨(save_spec { dirs := [], files := [] } true [] "out/manga.json").1,
   ((save_spec { dirs := [], files := [] } true [] "out/manga.json").2.2.1 rfl).1,
   (save_spec { dirs := [], files := [] } true [] "out/manga.json").2.2.2 'é' (by decide)⟩

end MangaScraper
